import Mathlib

/-!
Shallow embedding of the loan lifecycle of the library-management API
(FastAPI + SQLAlchemy).  Rows of the four relevant tables (`book`,
`book_copy`, `user`, `borrow`) become Lean structures; the in-memory
database is a record of row lists together with the autoincrement
counters; every route handler becomes a pure function that threads the
database state explicitly and returns an `Except` mirroring
`HTTPException(status_code, detail)`.  ORM calls are embedded as
follows: `query(...).filter(id == x).first()` is `List.find?`,
mutating the returned row is `updateFirst`, `db.delete(row)` is
`removeFirst`, and `db.add` appends a row carrying the next
autoincrement id.  `datetime` values are embedded as `Int`
timestamps, and each handler that calls `datetime.now()` receives the
current instant as an explicit `now` argument.
-/

namespace LucasApi

/-- Row of the `book` table (`app/models/book.py`). -/
structure Book where
  id : Nat
  title : String
  author : String
  isbn : Option String
  publisher : Option String
  publication_year : Option Int
  deriving Repr, DecidableEq

/-- Row of the `book_copy` table (`app/models/book.py`). -/
structure BookCopy where
  id : Nat
  book_id : Nat
  edition : Option String
  copy_number : Nat
  condition : Option String
  is_available : Bool
  deriving Repr, DecidableEq

/-- Row of the `user` table (`app/models/user.py`).  The joined-table
inheritance (`Funcionario`, `Cliente`) is flattened into the
polymorphic discriminator `user_type` plus the subtype columns as
optional fields; a polymorphic query against the `Funcionario` mapper
selects exactly the rows whose `user_type` is `"funcionario"`. -/
structure User where
  id : Nat
  name : String
  email : String
  password_hash : String
  created_at : Int
  updated_at : Option Int
  user_type : String
  role : Option String
  customer_type : Option String
  address : Option String
  deriving Repr, DecidableEq

/-- Row of the `borrow` table (`app/models/borrow.py`).  `return_date =
none` means the loan is open. -/
structure Borrow where
  id : Nat
  book_copy_id : Nat
  borrower_id : Nat
  lender_id : Nat
  borrow_date : Int
  due_date : Int
  return_date : Option Int
  deriving Repr, DecidableEq

/-- The relational store: one list per table plus the autoincrement
counters for the two tables this development inserts into. -/
structure DB where
  books : List Book
  copies : List BookCopy
  users : List User
  borrows : List Borrow
  next_copy_id : Nat
  next_borrow_id : Nat
  deriving Repr, DecidableEq

/-- Outcome of a handler: `http s d` embeds
`HTTPException(status_code := s, detail := d)`; `noneError` embeds the
`AttributeError` raised by dereferencing a `None` query result. -/
inductive ApiError where
  | http (statusCode : Nat) (detail : String)
  | noneError
  deriving Repr, DecidableEq

/-- Replace the first element satisfying `p` by its image under `f`
(the embedding of mutating the row returned by `.first()`). -/
def updateFirst (p : α → Bool) (f : α → α) : List α → List α
  | [] => []
  | x :: xs => if p x then f x :: xs else x :: updateFirst p f xs

/-- Drop the first element satisfying `p` (the embedding of
`db.delete(row)` on the row returned by `.first()`). -/
def removeFirst (p : α → Bool) : List α → List α
  | [] => []
  | x :: xs => if p x then xs else x :: removeFirst p xs

/-- Request body of `POST /borrows/` (`CreateBorrowRequest`). -/
structure CreateBorrowRequest where
  book_copy_id : Nat
  borrower_id : Nat
  lender_id : Nat
  due_date : Int
  deriving Repr, DecidableEq

/-- Request body of `POST /books/copies/` (`BookCopyCreate`). -/
structure BookCopyCreate where
  book_id : Nat
  edition : Option String
  copy_number : Nat
  condition : Option String
  is_available : Bool
  deriving Repr, DecidableEq

/-- Request body of `PUT /books/copies/{id}` (`BookCopyUpdate`); a
`none` field was not supplied and is skipped by
`model_dump(exclude_unset := True)`. -/
structure BookCopyUpdate where
  edition : Option String
  copy_number : Option Nat
  condition : Option String
  is_available : Option Bool
  deriving Repr, DecidableEq

/-- Response of `GET /borrows/{id}` (`BorrowDetailResponse`). -/
structure BorrowDetailResponse where
  id : Nat
  book_copy_id : Nat
  borrower_id : Nat
  lender_id : Nat
  borrow_date : Int
  due_date : Int
  return_date : Option Int
  book_title : String
  book_author : String
  copy_number : Nat
  book_condition : Option String
  borrower_name : String
  borrower_email : String
  lender_name : String
  lender_email : String
  deriving Repr, DecidableEq

/-- `verificar_disponibilidade_copia` (`routers/borrow.py`): 404 when
the copy is missing, 400 when it is not available. -/
def verificar_disponibilidade_copia (db : DB) (book_copy_id : Nat) :
    Except ApiError BookCopy :=
  match db.copies.find? (fun c => c.id == book_copy_id) with
  | none => .error (ApiError.http 404 "Cópia do livro não encontrada")
  | some copia =>
    if !copia.is_available then
      .error (ApiError.http 400 "Cópia não está disponível para empréstimo")
    else
      .ok copia

/-- `verificar_emprestimos_ativos`: open loans of a borrower. -/
def verificar_emprestimos_ativos (db : DB) (borrower_id : Nat) : List Borrow :=
  db.borrows.filter (fun b => b.borrower_id == borrower_id && b.return_date.isNone)

/-- `verificar_atrasos`: open loans of a borrower whose due date is
strictly before `hoje` (the handler's `datetime.now()`). -/
def verificar_atrasos (db : DB) (borrower_id : Nat) (hoje : Int) : List Borrow :=
  db.borrows.filter (fun b =>
    b.borrower_id == borrower_id && b.return_date.isNone && decide (b.due_date < hoje))

/-- `verificar_limite_emprestimos`: the active-loan count is below the
limit (the caller passes the default `max_emprestimos = 3`). -/
def verificar_limite_emprestimos (db : DB) (borrower_id : Nat)
    (max_emprestimos : Nat) : Bool :=
  (verificar_emprestimos_ativos db borrower_id).length < max_emprestimos

/-- `verificar_funcionario`: the polymorphic `Funcionario` query finds
a row with this id. -/
def verificar_funcionario (db : DB) (user_id : Nat) : Bool :=
  (db.users.find? (fun u => u.id == user_id && u.user_type == "funcionario")).isSome

/-- `criar_emprestimo` (`POST /borrows/`).  The returned `DB` is the
session state visible after the request: every `raise HTTPException`
occurs before any row mutation, so the error branches return the
input state unchanged. -/
def criar_emprestimo (db : DB) (emprestimo : CreateBorrowRequest) (now : Int) :
    DB × Except ApiError Borrow :=
  if emprestimo.due_date ≤ now then
    (db, .error (ApiError.http 400 "A data de devolução deve ser futura"))
  else
    match verificar_disponibilidade_copia db emprestimo.book_copy_id with
    | .error e => (db, .error e)
    | .ok copia =>
      match db.users.find? (fun u => u.id == emprestimo.borrower_id) with
      | none => (db, .error (ApiError.http 404 "Usuário que está emprestando não encontrado"))
      | some _borrower =>
        match db.users.find? (fun u => u.id == emprestimo.lender_id) with
        | none => (db, .error (ApiError.http 404 "Funcionário que está processando o empréstimo não encontrado"))
        | some _lender =>
          if !verificar_funcionario db emprestimo.lender_id then
            (db, .error (ApiError.http 400 "Apenas funcionários podem processar empréstimos"))
          else if !verificar_limite_emprestimos db emprestimo.borrower_id 3 then
            (db, .error (ApiError.http 400 "Usuário excedeu o limite de empréstimos ativos"))
          else if !(verificar_atrasos db emprestimo.borrower_id now).isEmpty then
            (db, .error (ApiError.http 400 "Usuário possui empréstimos em atraso e não pode fazer novos empréstimos"))
          else
            let novo : Borrow :=
              { id := db.next_borrow_id
                book_copy_id := emprestimo.book_copy_id
                borrower_id := emprestimo.borrower_id
                lender_id := emprestimo.lender_id
                borrow_date := now
                due_date := emprestimo.due_date
                return_date := none }
            let db' : DB :=
              { db with
                copies := updateFirst (fun c => c.id == emprestimo.book_copy_id)
                  (fun c => { c with is_available := false }) db.copies
                borrows := db.borrows ++ [novo]
                next_borrow_id := db.next_borrow_id + 1 }
            (db', .ok novo)

/-- `marcar_devolucao` (`PUT /borrows/{id}/return`).  `return_date_req`
is the optional body field; when absent the handler uses
`datetime.now()`.  The availability flip is guarded by `if copia:`,
so a missing copy row is skipped silently. -/
def marcar_devolucao (db : DB) (borrow_id : Nat) (return_date_req : Option Int)
    (now : Int) : DB × Except ApiError Borrow :=
  match db.borrows.find? (fun b => b.id == borrow_id) with
  | none => (db, .error (ApiError.http 404 "Empréstimo não encontrado"))
  | some emprestimo =>
    if emprestimo.return_date.isSome then
      (db, .error (ApiError.http 400 "Este empréstimo já foi devolvido"))
    else
      let data_devolucao := return_date_req.getD now
      let emprestimo' := { emprestimo with return_date := some data_devolucao }
      let borrows' := updateFirst (fun b => b.id == borrow_id)
        (fun b => { b with return_date := some data_devolucao }) db.borrows
      let copies' :=
        match db.copies.find? (fun c => c.id == emprestimo.book_copy_id) with
        | some _ => updateFirst (fun c => c.id == emprestimo.book_copy_id)
            (fun c => { c with is_available := true }) db.copies
        | none => db.copies
      ({ db with borrows := borrows', copies := copies' }, .ok emprestimo')

/-- `buscar_emprestimo` (`GET /borrows/{id}`).  Only the loan lookup is
guarded; the related copy, book, borrower and lender rows are
dereferenced unconditionally, so a missing one raises an
`AttributeError` on `None`, embedded as `ApiError.noneError`. -/
def buscar_emprestimo (db : DB) (borrow_id : Nat) :
    Except ApiError BorrowDetailResponse :=
  match db.borrows.find? (fun b => b.id == borrow_id) with
  | none => .error (ApiError.http 404 "Empréstimo não encontrado")
  | some emprestimo =>
    match db.copies.find? (fun c => c.id == emprestimo.book_copy_id) with
    | none => .error ApiError.noneError
    | some copia =>
      match db.books.find? (fun bk => bk.id == copia.book_id),
            db.users.find? (fun u => u.id == emprestimo.borrower_id),
            db.users.find? (fun u => u.id == emprestimo.lender_id) with
      | some livro, some borrower, some lender =>
        .ok { id := emprestimo.id
              book_copy_id := emprestimo.book_copy_id
              borrower_id := emprestimo.borrower_id
              lender_id := emprestimo.lender_id
              borrow_date := emprestimo.borrow_date
              due_date := emprestimo.due_date
              return_date := emprestimo.return_date
              book_title := livro.title
              book_author := livro.author
              copy_number := copia.copy_number
              book_condition := copia.condition
              borrower_name := borrower.name
              borrower_email := borrower.email
              lender_name := lender.name
              lender_email := lender.email }
      | _, _, _ => .error ApiError.noneError

/-- `criar_copia` (`POST /books/copies/`): the new row takes the
caller-supplied `is_available` verbatim. -/
def criar_copia (db : DB) (copia : BookCopyCreate) :
    DB × Except ApiError BookCopy :=
  match db.books.find? (fun bk => bk.id == copia.book_id) with
  | none => (db, .error (ApiError.http 404 "Livro não encontrado"))
  | some _livro =>
    match db.copies.find? (fun c =>
        c.book_id == copia.book_id && c.copy_number == copia.copy_number) with
    | some _ => (db, .error (ApiError.http 400 "Já existe uma cópia com este número para este livro"))
    | none =>
      let db_copia : BookCopy :=
        { id := db.next_copy_id
          book_id := copia.book_id
          edition := copia.edition
          copy_number := copia.copy_number
          condition := copia.condition
          is_available := copia.is_available }
      ({ db with copies := db.copies ++ [db_copia], next_copy_id := db.next_copy_id + 1 },
       .ok db_copia)

/-- Apply the supplied fields of a `BookCopyUpdate` to a row (the
`setattr` loop over `model_dump(exclude_unset := True)`). -/
def applyCopyUpdate (upd : BookCopyUpdate) (c : BookCopy) : BookCopy :=
  { c with
    edition := match upd.edition with | some e => some e | none => c.edition
    copy_number := upd.copy_number.getD c.copy_number
    condition := match upd.condition with | some s => some s | none => c.condition
    is_available := upd.is_available.getD c.is_available }

/-- `atualizar_copia` (`PUT /books/copies/{id}`): duplicate
`copy_number` check, then field-wise update (including a
caller-supplied `is_available`). -/
def atualizar_copia (db : DB) (copy_id : Nat) (copia_update : BookCopyUpdate) :
    DB × Except ApiError BookCopy :=
  match db.copies.find? (fun c => c.id == copy_id) with
  | none => (db, .error (ApiError.http 404 "Cópia não encontrada"))
  | some db_copia =>
    let dup : Bool :=
      match copia_update.copy_number with
      | none => false
      | some n =>
        (db.copies.find? (fun c : BookCopy =>
          c.book_id == db_copia.book_id && c.copy_number == n && !(c.id == copy_id))).isSome
    if dup then
      (db, .error (ApiError.http 400 "Já existe outra cópia com este número para este livro"))
    else
      let copies' : List BookCopy := updateFirst (fun c => c.id == copy_id)
        (applyCopyUpdate copia_update) db.copies
      ({ db with copies := copies' }, .ok (applyCopyUpdate copia_update db_copia))

/-- `deletar_copia` (`DELETE /books/copies/{id}`): rejected only when
the copy is currently marked unavailable. -/
def deletar_copia (db : DB) (copy_id : Nat) : DB × Except ApiError Unit :=
  match db.copies.find? (fun c => c.id == copy_id) with
  | none => (db, .error (ApiError.http 404 "Cópia não encontrada"))
  | some db_copia =>
    if !db_copia.is_available then
      (db, .error (ApiError.http 400 "Não é possível deletar uma cópia que está emprestada"))
    else
      ({ db with copies := removeFirst (fun c => c.id == copy_id) db.copies }, .ok ())

/-- `deletar_usuario` (`DELETE /users/{id}`, `routers/user.py`): the
handler checks only that the user exists; it performs no check against
the `borrow` table before deleting. -/
def deletar_usuario (db : DB) (user_id : Nat) : DB × Except ApiError Unit :=
  match db.users.find? (fun u => u.id == user_id) with
  | none => (db, .error (ApiError.http 404 "Usuário não encontrado"))
  | some _ =>
    ({ db with users := removeFirst (fun u => u.id == user_id) db.users }, .ok ())

/-- Number of open loans in a ledger referencing copy id `cid`. -/
def openCountL (borrows : List Borrow) (cid : Nat) : Nat :=
  borrows.countP (fun b => b.book_copy_id == cid && b.return_date.isNone)

/-- Number of open loans in the store referencing copy id `cid`. -/
def openCount (db : DB) (cid : Nat) : Nat :=
  openCountL db.borrows cid

/-- The availability invariant exactly as the spec states it: a copy is
unavailable iff exactly one open loan references it. -/
def InvariantIff (db : DB) : Prop :=
  ∀ c ∈ db.copies, (c.is_available = false ↔ openCount db c.id = 1)

/-- List-level availability invariant together with the
at-most-one-open-loan invariant of §3. -/
def InvL (copies : List BookCopy) (borrows : List Borrow) : Prop :=
  ∀ c ∈ copies,
    openCountL borrows c.id ≤ 1 ∧ (c.is_available = false ↔ openCountL borrows c.id = 1)

/-- The availability invariant together with the at-most-one-open-loan
invariant of §3, over the store. -/
def Inv (db : DB) : Prop :=
  InvL db.copies db.borrows

/-- Relational well-formedness: primary keys are unique and the
autoincrement counters bound every existing id. -/
def WF (db : DB) : Prop :=
  db.copies.Pairwise (fun a b => a.id ≠ b.id) ∧
  db.borrows.Pairwise (fun a b => a.id ≠ b.id) ∧
  (∀ c ∈ db.copies, c.id < db.next_copy_id) ∧
  (∀ b ∈ db.borrows, b.id < db.next_borrow_id)

instance (db : DB) : Decidable (InvariantIff db) := by
  unfold InvariantIff; infer_instance

instance (db : DB) : Decidable (Inv db) := by
  unfold Inv InvL; infer_instance

instance (db : DB) : Decidable (WF db) := by
  unfold WF; infer_instance

/-- Fixture: a customer user (id 1). -/
def exUserCliente : User :=
  { id := 1, name := "Ana", email := "ana@example.com", password_hash := "hashed_abc123",
    created_at := 0, updated_at := none, user_type := "cliente",
    role := none, customer_type := some "individual", address := some "Rua A" }

/-- Fixture: an employee user (id 2, lender-capable). -/
def exUserFuncionario : User :=
  { id := 2, name := "Bob", email := "bob@example.com", password_hash := "hashed_def456",
    created_at := 0, updated_at := none, user_type := "funcionario",
    role := some "bibliotecario", customer_type := none, address := none }

/-- Fixture: a book (id 1). -/
def exBook : Book :=
  { id := 1, title := "Dom Casmurro", author := "Machado de Assis",
    isbn := some "9788535910663", publisher := none, publication_year := some 1899 }

/-- Fixture: an available copy (id 1) of the book. -/
def exCopy : BookCopy :=
  { id := 1, book_id := 1, edition := some "1a", copy_number := 1,
    condition := some "boa", is_available := true }

/-- Fixture: an open loan (id 1) of copy 1 by borrower 1. -/
def exLoanOpen : Borrow :=
  { id := 1, book_copy_id := 1, borrower_id := 1, lender_id := 2,
    borrow_date := 0, due_date := 10, return_date := none }

/-- Fixture: a loan request for copy 1, borrower 1, lender 2, due 10. -/
def exReq : CreateBorrowRequest :=
  { book_copy_id := 1, borrower_id := 1, lender_id := 2, due_date := 10 }

/-- Fixture: a copy-creation request carrying `is_available := false`. -/
def exCopyReqUnav : BookCopyCreate :=
  { book_id := 1, edition := none, copy_number := 1, condition := none,
    is_available := false }

/-- Fixture store: one available copy, two users, no loans. -/
def dbAvail : DB :=
  { books := [exBook], copies := [exCopy],
    users := [exUserCliente, exUserFuncionario], borrows := [],
    next_copy_id := 2, next_borrow_id := 1 }

/-- Fixture store: the copy is marked unavailable, no loans. -/
def dbUnav : DB :=
  { books := [exBook], copies := [{ exCopy with is_available := false }],
    users := [exUserCliente, exUserFuncionario], borrows := [],
    next_copy_id := 2, next_borrow_id := 1 }

/-- Fixture store: copy 1 is on loan (open loan id 1). -/
def dbOnLoan : DB :=
  { books := [exBook], copies := [{ exCopy with is_available := false }],
    users := [exUserCliente, exUserFuncionario], borrows := [exLoanOpen],
    next_copy_id := 2, next_borrow_id := 2 }

/-- Fixture store: borrower 1 already holds three open loans. -/
def dbAtLimit : DB :=
  { books := [exBook],
    copies := [{ exCopy with is_available := false },
               { exCopy with id := 2, copy_number := 2, is_available := false },
               { exCopy with id := 3, copy_number := 3, is_available := false },
               { exCopy with id := 4, copy_number := 4 }],
    users := [exUserCliente, exUserFuncionario],
    borrows := [exLoanOpen,
                { exLoanOpen with id := 2, book_copy_id := 2 },
                { exLoanOpen with id := 3, book_copy_id := 3 }],
    next_copy_id := 5, next_borrow_id := 4 }

/-- Fixture store: borrower 1 has an overdue open loan (due 5). -/
def dbOverdue : DB :=
  { books := [exBook],
    copies := [{ exCopy with is_available := false },
               { exCopy with id := 2, copy_number := 2 }],
    users := [exUserCliente, exUserFuncionario],
    borrows := [{ exLoanOpen with due_date := 5 }],
    next_copy_id := 3, next_borrow_id := 2 }

/-- Fixture store: open loan 1 references copy 9, which is absent. -/
def dbOrphan : DB :=
  { books := [exBook], copies := [],
    users := [exUserCliente, exUserFuncionario],
    borrows := [{ exLoanOpen with book_copy_id := 9 }],
    next_copy_id := 2, next_borrow_id := 2 }

/-- Fixture store with only a book, for exercising copy creation. -/
def dbBooksOnly : DB :=
  { books := [exBook], copies := [], users := [], borrows := [],
    next_copy_id := 1, next_borrow_id := 1 }

/-- Fixture: a copy update setting only `is_available := true`. -/
def exUpdAvail : BookCopyUpdate :=
  { edition := none, copy_number := none, condition := none,
    is_available := some true }

theorem updateFirst_of_find?_eq_none {p : α → Bool} {l : List α} (f : α → α)
    (h : l.find? p = none) : updateFirst p f l = l := by
  induction l with
  | nil => rfl
  | cons a l ih =>
    rw [List.find?_eq_none] at h
    have ha : p a = false := by
      have := h a (List.mem_cons_self a l)
      simpa using this
    simp only [updateFirst, ha, if_neg]
    simp only [Bool.false_eq_true, if_false, List.cons.injEq, true_and]
    exact ih (by rw [List.find?_eq_none]; intro x hx; exact h x (List.mem_cons_of_mem a hx))

theorem removeFirst_of_find?_eq_none {p : α → Bool} {l : List α}
    (h : l.find? p = none) : removeFirst p l = l := by
  induction l with
  | nil => rfl
  | cons a l ih =>
    rw [List.find?_eq_none] at h
    have ha : p a = false := by
      have := h a (List.mem_cons_self a l)
      simpa using this
    simp only [removeFirst, ha, Bool.false_eq_true, if_false, List.cons.injEq, true_and]
    exact ih (by rw [List.find?_eq_none]; intro x hx; exact h x (List.mem_cons_of_mem a hx))

theorem find?_decomp {p : α → Bool} {l : List α} {x : α}
    (h : l.find? p = some x) :
    ∃ l₁ l₂, l = l₁ ++ x :: l₂ ∧ (∀ y ∈ l₁, p y = false) ∧
      (∀ f : α → α, updateFirst p f l = l₁ ++ f x :: l₂) ∧
      removeFirst p l = l₁ ++ l₂ := by
  induction l with
  | nil => simp at h
  | cons a l ih =>
    by_cases hp : p a
    · rw [List.find?_cons_of_pos _ hp] at h
      obtain rfl : a = x := by simpa using h
      refine ⟨[], l, rfl, by simp, ?_, ?_⟩
      · intro f; simp [updateFirst, hp]
      · simp [removeFirst, hp]
    · rw [List.find?_cons_of_neg _ hp] at h
      obtain ⟨l₁, l₂, hl, hfalse, hupd, hrem⟩ := ih h
      refine ⟨a :: l₁, l₂, by simp [hl], ?_, ?_, ?_⟩
      · intro y hy
        rcases List.mem_cons.mp hy with rfl | hy
        · simpa using hp
        · exact hfalse y hy
      · intro f
        have ha : p a = false := by simpa using hp
        simp only [updateFirst, ha, Bool.false_eq_true, if_false, List.cons_append,
          List.cons.injEq, true_and]
        exact hupd f
      · have ha : p a = false := by simpa using hp
        simp only [removeFirst, ha, Bool.false_eq_true, if_false, List.cons_append,
          List.cons.injEq, true_and]
        exact hrem

theorem find?_middle {p : α → Bool} {l₁ l₂ : List α} {x : α}
    (hfalse : ∀ y ∈ l₁, p y = false) (hx : p x = true) :
    (l₁ ++ x :: l₂).find? p = some x := by
  induction l₁ with
  | nil => simpa using List.find?_cons_of_pos l₂ hx
  | cons a t ih =>
    have ha : p a = false := hfalse a (List.mem_cons_self _ _)
    rw [List.cons_append, List.find?_cons_of_neg]
    · exact ih (fun y hy => hfalse y (List.mem_cons_of_mem _ hy))
    · simp [ha]

theorem updateFirst_middle {p : α → Bool} {f : α → α} {l₁ l₂ : List α} {x : α}
    (hfalse : ∀ y ∈ l₁, p y = false) (hx : p x = true) :
    updateFirst p f (l₁ ++ x :: l₂) = l₁ ++ f x :: l₂ := by
  induction l₁ with
  | nil => simp [updateFirst, hx]
  | cons a t ih =>
    have ha : p a = false := hfalse a (List.mem_cons_self _ _)
    simp only [List.cons_append, updateFirst, ha, Bool.false_eq_true, if_false,
      List.cons.injEq, true_and]
    exact ih (fun y hy => hfalse y (List.mem_cons_of_mem _ hy))

theorem verificar_disponibilidade_copia_ok {db : DB} {cid : Nat} {c : BookCopy}
    (h : verificar_disponibilidade_copia db cid = .ok c) :
    db.copies.find? (fun x => x.id == cid) = some c ∧ c.is_available = true := by
  unfold verificar_disponibilidade_copia at h
  split at h
  · exact absurd h (by simp)
  · rename_i copia hfind
    split at h
    · exact absurd h (by simp)
    · rename_i hav
      obtain rfl : copia = c := by simpa using h
      refine ⟨hfind, ?_⟩
      simpa using hav

theorem criar_emprestimo_ok {db db' : DB} {req : CreateBorrowRequest} {now : Int}
    {l : Borrow} (h : criar_emprestimo db req now = (db', .ok l)) :
    ∃ copia, db.copies.find? (fun c => c.id == req.book_copy_id) = some copia ∧
      copia.is_available = true ∧ copia.id = req.book_copy_id ∧
      l = { id := db.next_borrow_id, book_copy_id := req.book_copy_id,
            borrower_id := req.borrower_id, lender_id := req.lender_id,
            borrow_date := now, due_date := req.due_date, return_date := none } ∧
      db' = { db with
              copies := updateFirst (fun c => c.id == req.book_copy_id)
                (fun c => { c with is_available := false }) db.copies,
              borrows := db.borrows ++ [l],
              next_borrow_id := db.next_borrow_id + 1 } := by
  unfold criar_emprestimo at h
  split at h
  · simp at h
  split at h
  · simp at h
  rename_i copia hvok
  obtain ⟨hfind, hav⟩ := verificar_disponibilidade_copia_ok hvok
  split at h
  · simp at h
  split at h
  · simp at h
  split at h
  · simp at h
  split at h
  · simp at h
  split at h
  · simp at h
  rw [Prod.mk.injEq] at h
  obtain ⟨hdb, hok⟩ := h
  have hid : copia.id = req.book_copy_id := by
    have := List.find?_some hfind
    simpa using this
  have hl := Except.ok.inj hok
  refine ⟨copia, hfind, hav, hid, hl.symm, ?_⟩
  rw [← hdb, ← hl]

theorem marcar_devolucao_ok {db db' : DB} {bid : Nat} {ret : Option Int}
    {now : Int} {l : Borrow} (h : marcar_devolucao db bid ret now = (db', .ok l)) :
    ∃ emp, db.borrows.find? (fun b => b.id == bid) = some emp ∧
      emp.return_date = none ∧
      l = { emp with return_date := some (ret.getD now) } ∧
      db'.borrows = updateFirst (fun b => b.id == bid)
        (fun b => { b with return_date := some (ret.getD now) }) db.borrows ∧
      ((∃ c, db.copies.find? (fun x => x.id == emp.book_copy_id) = some c ∧
          db'.copies = updateFirst (fun x => x.id == emp.book_copy_id)
            (fun x => { x with is_available := true }) db.copies) ∨
        (db.copies.find? (fun x => x.id == emp.book_copy_id) = none ∧
          db'.copies = db.copies)) ∧
      db'.books = db.books ∧ db'.users = db.users ∧
      db'.next_copy_id = db.next_copy_id ∧
      db'.next_borrow_id = db.next_borrow_id := by
  unfold marcar_devolucao at h
  split at h
  · simp at h
  rename_i emp hfind
  split at h
  · simp at h
  rename_i hopen
  rw [Prod.mk.injEq] at h
  obtain ⟨hdb, hok⟩ := h
  have hret : emp.return_date = none := by
    cases hre : emp.return_date with
    | none => rfl
    | some d => rw [hre] at hopen; simp at hopen
  have hl := Except.ok.inj hok
  refine ⟨emp, hfind, hret, hl.symm, ?_, ?_, ?_, ?_, ?_, ?_⟩
  · rw [← hdb]
  · rw [← hdb]
    cases hc : db.copies.find? (fun x => x.id == emp.book_copy_id) with
    | none =>
      right
      exact ⟨rfl, by simp only [hc]⟩
    | some c =>
      left
      exact ⟨c, rfl, by simp only [hc]⟩
  · rw [← hdb]
  · rw [← hdb]
  · rw [← hdb]
  · rw [← hdb]

theorem criar_emprestimo_state (db : DB) (req : CreateBorrowRequest) (now : Int) :
    (criar_emprestimo db req now).1 = db ∨
      ∃ l, (criar_emprestimo db req now).2 = .ok l := by
  unfold criar_emprestimo
  split
  · left; rfl
  split
  · left; rfl
  split
  · left; rfl
  split
  · left; rfl
  split
  · left; rfl
  split
  · left; rfl
  split
  · left; rfl
  · right; exact ⟨_, rfl⟩

theorem marcar_devolucao_state (db : DB) (bid : Nat) (ret : Option Int) (now : Int) :
    (marcar_devolucao db bid ret now).1 = db ∨
      ∃ l, (marcar_devolucao db bid ret now).2 = .ok l := by
  unfold marcar_devolucao
  split
  · left; rfl
  split
  · left; rfl
  · right; exact ⟨_, rfl⟩

/-- C2: both loan mutations are all-or-nothing: a rejected call leaves
the store exactly as it was, and a successful call writes the Loan
ledger entry and the copy availability flag together. -/
theorem C2_loan_ops_atomic (db : DB) :
    (∀ req now,
      (∀ e, (criar_emprestimo db req now).2 = .error e →
        (criar_emprestimo db req now).1 = db) ∧
      (∀ l, (criar_emprestimo db req now).2 = .ok l →
        l ∈ (criar_emprestimo db req now).1.borrows ∧ l.return_date = none ∧
        ∃ c ∈ (criar_emprestimo db req now).1.copies,
          c.id = req.book_copy_id ∧ c.is_available = false)) ∧
    (∀ bid ret now,
      (∀ e, (marcar_devolucao db bid ret now).2 = .error e →
        (marcar_devolucao db bid ret now).1 = db) ∧
      (∀ l, (marcar_devolucao db bid ret now).2 = .ok l →
        l ∈ (marcar_devolucao db bid ret now).1.borrows ∧
        l.return_date = some (ret.getD now) ∧
        (∀ c, db.copies.find? (fun x => x.id == l.book_copy_id) = some c →
          ∃ c' ∈ (marcar_devolucao db bid ret now).1.copies,
            c'.id = l.book_copy_id ∧ c'.is_available = true))) := by
  constructor
  · intro req now
    constructor
    · intro e he
      rcases criar_emprestimo_state db req now with h | ⟨l, hl⟩
      · exact h
      · rw [he] at hl; exact absurd hl (by simp)
    · intro l hl
      have hpair : criar_emprestimo db req now =
          ((criar_emprestimo db req now).1, .ok l) := by
        rw [← hl]
      obtain ⟨copia, hfind, hav, hid, hleq, hdb⟩ := criar_emprestimo_ok hpair
      obtain ⟨l₁, l₂, hsplit, hfalse, hupd, -⟩ := find?_decomp hfind
      rw [hdb]
      refine ⟨?_, ?_, ?_⟩
      · simp
      · rw [hleq]
      · refine ⟨{ copia with is_available := false }, ?_, by simpa using hid, rfl⟩
        simp only [hupd]
        simp
  · intro bid ret now
    constructor
    · intro e he
      rcases marcar_devolucao_state db bid ret now with h | ⟨l, hl⟩
      · exact h
      · rw [he] at hl; exact absurd hl (by simp)
    · intro l hl
      have hpair : marcar_devolucao db bid ret now =
          ((marcar_devolucao db bid ret now).1, .ok l) := by
        rw [← hl]
      obtain ⟨emp, hfind, hret, hleq, hbor, hcop, -, -, -, -⟩ :=
        marcar_devolucao_ok hpair
      have hbcid : l.book_copy_id = emp.book_copy_id := by rw [hleq]
      refine ⟨?_, ?_, ?_⟩
      · obtain ⟨l₁, l₂, hsplit, hfalse, hupd, -⟩ := find?_decomp hfind
        rw [hbor, hupd]
        rw [hleq]
        simp
      · rw [hleq]
      · intro c hc
        rcases hcop with ⟨c₀, hc₀, hcop⟩ | ⟨hnone, -⟩
        · obtain ⟨k₁, k₂, hksplit, hkfalse, hkupd, -⟩ := find?_decomp hc₀
          have hcid : c₀.id = emp.book_copy_id := by
            have := List.find?_some hc₀
            simpa using this
          refine ⟨{ c₀ with is_available := true }, ?_, by simpa [hbcid] using hcid, rfl⟩
          rw [hcop, hkupd]
          simp
        · rw [hbcid] at hc
          rw [hnone] at hc
          exact absurd hc (by simp)

/-- C3: an `openLoan` request whose copy exists but is unavailable is
rejected with an HTTP 400 validation error and the store is untouched,
whatever borrower, lender and due date are supplied. -/
theorem C3_unavailable_copy_rejected (db : DB) (req : CreateBorrowRequest)
    (now : Int) (c : BookCopy)
    (hfind : db.copies.find? (fun x => x.id == req.book_copy_id) = some c)
    (hunav : c.is_available = false) :
    ∃ d, criar_emprestimo db req now = (db, .error (ApiError.http 400 d)) := by
  unfold criar_emprestimo
  split
  · exact ⟨_, rfl⟩
  · have hv : verificar_disponibilidade_copia db req.book_copy_id =
        .error (ApiError.http 400 "Cópia não está disponível para empréstimo") := by
      unfold verificar_disponibilidade_copia
      rw [hfind]
      simp [hunav]
    rw [hv]
    exact ⟨_, rfl⟩

/-- C4: a borrower already holding `max_active_loans = 3` open loans is
rejected on any further `openLoan` call, and with fewer than 3 open
loans the limit check passes. -/
theorem C4_loan_limit (db : DB) (req : CreateBorrowRequest) (now : Int) :
    (3 ≤ (verificar_emprestimos_ativos db req.borrower_id).length →
      ∃ e, criar_emprestimo db req now = (db, .error e)) ∧
    (∀ borrower_id, (verificar_emprestimos_ativos db borrower_id).length < 3 →
      verificar_limite_emprestimos db borrower_id 3 = true) := by
  constructor
  · intro hge
    unfold criar_emprestimo
    split
    · exact ⟨_, rfl⟩
    split
    · exact ⟨_, rfl⟩
    split
    · exact ⟨_, rfl⟩
    split
    · exact ⟨_, rfl⟩
    split
    · exact ⟨_, rfl⟩
    split
    · exact ⟨_, rfl⟩
    · rename_i hlim
      exfalso
      have : verificar_limite_emprestimos db req.borrower_id 3 = true := by
        simpa using hlim
      unfold verificar_limite_emprestimos at this
      simp only [decide_eq_true_eq] at this
      omega
  · intro borrower_id hlt
    unfold verificar_limite_emprestimos
    simpa using hlt

/-- C5: a borrower with an open loan already past its due date is
rejected on every new `openLoan` call. -/
theorem C5_delinquent_rejected (db : DB) (req : CreateBorrowRequest) (now : Int)
    (hdelinquent : ∃ b ∈ db.borrows, b.borrower_id = req.borrower_id ∧
      b.return_date = none ∧ b.due_date < now) :
    ∃ e, criar_emprestimo db req now = (db, .error e) := by
  unfold criar_emprestimo
  split
  · exact ⟨_, rfl⟩
  split
  · exact ⟨_, rfl⟩
  split
  · exact ⟨_, rfl⟩
  split
  · exact ⟨_, rfl⟩
  split
  · exact ⟨_, rfl⟩
  split
  · exact ⟨_, rfl⟩
  split
  · exact ⟨_, rfl⟩
  · rename_i hatr
    exfalso
    obtain ⟨b, hb, hbor, hopen, hdue⟩ := hdelinquent
    have hmem : b ∈ verificar_atrasos db req.borrower_id now := by
      unfold verificar_atrasos
      refine List.mem_filter.mpr ⟨hb, ?_⟩
      simp [hbor, hopen, hdue]
    have hne : verificar_atrasos db req.borrower_id now ≠ [] :=
      List.ne_nil_of_mem hmem
    have : (verificar_atrasos db req.borrower_id now).isEmpty = true := by
      simpa using hatr
    exact hne (List.isEmpty_iff.mp this)

/-- C6: the first closeLoan call on an open loan succeeds and sets its
return date; a second call on the same id is rejected with Conflict
(HTTP 400, already returned) and leaves the store unchanged. -/
theorem C6_closeLoan_idempotent_rejecting (db : DB) (bid : Nat) (ret : Option Int)
    (now : Int) (b : Borrow)
    (hfind : db.borrows.find? (fun x => x.id == bid) = some b)
    (hopen : b.return_date = none) :
    ∃ l, (marcar_devolucao db bid ret now).2 = .ok l ∧
      l.return_date = some (ret.getD now) ∧
      ∀ ret2 now2,
        marcar_devolucao (marcar_devolucao db bid ret now).1 bid ret2 now2 =
          ((marcar_devolucao db bid ret now).1,
            .error (ApiError.http 400 "Este empréstimo já foi devolvido")) := by
  obtain ⟨l₁, l₂, hsplit, hfalse, hupd, -⟩ := find?_decomp hfind
  have hsucc : (marcar_devolucao db bid ret now).2 =
      .ok { b with return_date := some (ret.getD now) } := by
    unfold marcar_devolucao
    rw [hfind]
    simp [hopen]
  have hbor : (marcar_devolucao db bid ret now).1.borrows =
      l₁ ++ { b with return_date := some (ret.getD now) } :: l₂ := by
    unfold marcar_devolucao
    rw [hfind]
    simp only [hopen, Option.isSome_none, Bool.false_eq_true, if_false]
    exact hupd _
  have hfind2 : (marcar_devolucao db bid ret now).1.borrows.find?
      (fun x => x.id == bid) = some { b with return_date := some (ret.getD now) } := by
    rw [hbor]
    have h2 : ((fun x : Borrow => x.id == bid)
        { b with return_date := some (ret.getD now) }) = true := by
      simpa using List.find?_some hfind
    exact find?_middle hfalse h2
  refine ⟨_, hsucc, rfl, ?_⟩
  intro ret2 now2
  obtain ⟨X, hX⟩ : ∃ X, (marcar_devolucao db bid ret now).1 = X := ⟨_, rfl⟩
  rw [hX] at hfind2 ⊢
  unfold marcar_devolucao
  rw [hfind2]
  simp

/-- C8: closing an open loan whose referenced copy row is absent still
closes the loan and changes no availability flag: the flip is skipped
instead of the call failing with NotFound. -/
theorem C8_close_with_missing_copy (db : DB) (bid : Nat) (ret : Option Int)
    (now : Int) (b : Borrow)
    (hfind : db.borrows.find? (fun x => x.id == bid) = some b)
    (hopen : b.return_date = none)
    (hnocopy : db.copies.find? (fun c => c.id == b.book_copy_id) = none) :
    (marcar_devolucao db bid ret now).2 =
      .ok { b with return_date := some (ret.getD now) } ∧
    (marcar_devolucao db bid ret now).1.copies = db.copies := by
  unfold marcar_devolucao
  rw [hfind]
  simp [hopen, hnocopy]

/-- C10: the loan-detail read guards absence only for the loan itself:
a missing loan yields NotFound, but once the loan exists a missing
copy, book, borrower or lender row makes the handler dereference
`None` (an AttributeError), and the well-formed detail response is
produced exactly when all four related rows exist. -/
theorem C10_detail_read_guards_only_loan (db : DB) (bid : Nat) :
    (db.borrows.find? (fun x => x.id == bid) = none →
      buscar_emprestimo db bid = .error (ApiError.http 404 "Empréstimo não encontrado")) ∧
    (∀ emp, db.borrows.find? (fun x => x.id == bid) = some emp →
      (db.copies.find? (fun c => c.id == emp.book_copy_id) = none →
        buscar_emprestimo db bid = .error ApiError.noneError) ∧
      (∀ copia, db.copies.find? (fun c => c.id == emp.book_copy_id) = some copia →
        ((db.books.find? (fun bk => bk.id == copia.book_id) = none ∨
          db.users.find? (fun u => u.id == emp.borrower_id) = none ∨
          db.users.find? (fun u => u.id == emp.lender_id) = none) →
          buscar_emprestimo db bid = .error ApiError.noneError) ∧
        (∀ livro borrower lender,
          db.books.find? (fun bk => bk.id == copia.book_id) = some livro →
          db.users.find? (fun u => u.id == emp.borrower_id) = some borrower →
          db.users.find? (fun u => u.id == emp.lender_id) = some lender →
          buscar_emprestimo db bid = .ok
            { id := emp.id, book_copy_id := emp.book_copy_id,
              borrower_id := emp.borrower_id, lender_id := emp.lender_id,
              borrow_date := emp.borrow_date, due_date := emp.due_date,
              return_date := emp.return_date,
              book_title := livro.title, book_author := livro.author,
              copy_number := copia.copy_number, book_condition := copia.condition,
              borrower_name := borrower.name, borrower_email := borrower.email,
              lender_name := lender.name, lender_email := lender.email }))) := by
  refine ⟨?_, ?_⟩
  · intro hnone
    unfold buscar_emprestimo
    rw [hnone]
  · intro emp hemp
    refine ⟨?_, ?_⟩
    · intro hnocopy
      unfold buscar_emprestimo
      simp only [hemp, hnocopy]
    · intro copia hcop
      refine ⟨?_, ?_⟩
      · intro hcrash
        unfold buscar_emprestimo
        simp only [hemp, hcop]
        rcases hcrash with h | h | h <;>
          cases hbk : db.books.find? (fun bk => bk.id == copia.book_id) <;>
          cases hbo : db.users.find? (fun u => u.id == emp.borrower_id) <;>
          cases hle : db.users.find? (fun u => u.id == emp.lender_id) <;>
          simp_all
      · intro livro borrower lender hbk hbo hle
        unfold buscar_emprestimo
        simp only [hemp, hcop, hbk, hbo, hle]

/-- C9 amended: deleting a BookCopy referenced by an open Loan is
rejected (via its availability flag, under the §3 invariant) with the
record unchanged, but deleting a User is never guarded by the loan
ledger: the delete succeeds for any existing user, open loans or not. -/
theorem C9_amended_delete_guards (db : DB) :
    (∀ cid c, Inv db →
      db.copies.find? (fun x => x.id == cid) = some c →
      (∃ b ∈ db.borrows, b.book_copy_id = c.id ∧ b.return_date = none) →
      deletar_copia db cid =
        (db, .error (ApiError.http 400 "Não é possível deletar uma cópia que está emprestada"))) ∧
    (∀ uid u, db.users.find? (fun x => x.id == uid) = some u →
      (deletar_usuario db uid).2 = .ok ()) := by
  constructor
  · intro cid c hInv hfind hloan
    obtain ⟨hle, hiff⟩ := hInv c (List.mem_of_find?_eq_some hfind)
    obtain ⟨b, hb, hbcid, hbopen⟩ := hloan
    have hpos : 0 < openCountL db.borrows c.id := by
      unfold openCountL
      rw [List.countP_pos_iff]
      exact ⟨b, hb, by simp [hbcid, hbopen]⟩
    have hone : openCountL db.borrows c.id = 1 := by omega
    have hunav : c.is_available = false := hiff.mpr hone
    unfold deletar_copia
    rw [hfind]
    simp [hunav]
  · intro uid u hfind
    unfold deletar_usuario
    rw [hfind]

theorem pairwise_key_replace (key : α → Nat) (c c' : α) {k₁ k₂ : List α}
    (hid : key c' = key c)
    (h : (k₁ ++ c :: k₂).Pairwise (fun a b => key a ≠ key b)) :
    (k₁ ++ c' :: k₂).Pairwise (fun a b => key a ≠ key b) := by
  rw [List.pairwise_append] at h ⊢
  obtain ⟨h1, h2, h3⟩ := h
  rw [List.pairwise_cons] at h2 ⊢
  refine ⟨h1, ⟨fun y hy => by rw [hid]; exact h2.1 y hy, h2.2⟩, ?_⟩
  intro a ha b hb
  rcases List.mem_cons.mp hb with rfl | hb
  · rw [hid]; exact h3 a ha c (List.mem_cons_self _ _)
  · exact h3 a ha b (List.mem_cons_of_mem _ hb)

theorem pairwise_key_remove (key : α → Nat) {k₁ k₂ : List α} {c : α}
    (h : (k₁ ++ c :: k₂).Pairwise (fun a b => key a ≠ key b)) :
    (k₁ ++ k₂).Pairwise (fun a b => key a ≠ key b) := by
  rw [List.pairwise_append] at h ⊢
  obtain ⟨h1, h2, h3⟩ := h
  exact ⟨h1, (List.pairwise_cons.mp h2).2,
    fun a ha b hb => h3 a ha b (List.mem_cons_of_mem _ hb)⟩

theorem bound_key_replace (key : α → Nat) (c c' : α) {k₁ k₂ : List α} {n : Nat}
    (hid : key c' = key c)
    (h : ∀ y ∈ k₁ ++ c :: k₂, key y < n) :
    ∀ y ∈ k₁ ++ c' :: k₂, key y < n := by
  intro y hy
  rcases List.mem_append.mp hy with h1 | h2
  · exact h y (List.mem_append.mpr (Or.inl h1))
  · rcases List.mem_cons.mp h2 with rfl | h3
    · rw [hid]; exact h c (List.mem_append.mpr (Or.inr (List.mem_cons_self _ _)))
    · exact h y (List.mem_append.mpr (Or.inr (List.mem_cons_of_mem _ h3)))

theorem InvL_sub {copies copies' : List BookCopy} {borrows : List Borrow}
    (hInv : InvL copies borrows) (hsub : ∀ c ∈ copies', c ∈ copies) :
    InvL copies' borrows :=
  fun c hc => hInv c (hsub c hc)

theorem InvL_open {copies : List BookCopy} {borrows : List Borrow} {cid : Nat}
    {copia : BookCopy} {novo : Borrow}
    (hpair : copies.Pairwise (fun a b => a.id ≠ b.id))
    (hInv : InvL copies borrows)
    (hfind : copies.find? (fun c => c.id == cid) = some copia)
    (hav : copia.is_available = true)
    (hncid : novo.book_copy_id = cid)
    (hnopen : novo.return_date = none) :
    InvL (updateFirst (fun c => c.id == cid)
      (fun c => { c with is_available := false }) copies) (borrows ++ [novo]) := by
  have hcid : copia.id = cid := by simpa using List.find?_some hfind
  have hcount : ∀ x, openCountL (borrows ++ [novo]) x =
      openCountL borrows x + (if cid = x then 1 else 0) := by
    intro x
    unfold openCountL
    rw [List.countP_append]
    congr 1
    by_cases hx : cid = x
    · simp [List.countP_cons, hncid, hnopen, hx]
    · simp [List.countP_cons, hncid, hnopen, hx]
  have h0 : openCountL borrows copia.id = 0 := by
    obtain ⟨hle, hiff⟩ := hInv copia (List.mem_of_find?_eq_some hfind)
    have hne1 : openCountL borrows copia.id ≠ 1 := by
      intro h1
      rw [hiff.mpr h1] at hav
      cases hav
    omega
  obtain ⟨k₁, k₂, hsplit, hkfalse, hkupd, -⟩ := find?_decomp hfind
  rw [hkupd]
  intro c hc
  rcases List.mem_append.mp hc with hc1 | hc2
  · have hne : c.id ≠ cid := by simpa using hkfalse c hc1
    have hmem : c ∈ copies := by
      rw [hsplit]; exact List.mem_append.mpr (Or.inl hc1)
    rw [hcount c.id, if_neg (fun h => hne h.symm)]
    exact hInv c hmem
  · rcases List.mem_cons.mp hc2 with rfl | hc3
    · dsimp only
      rw [hcount copia.id, if_pos hcid.symm, h0]
      simp
    · have hpair2 := hsplit ▸ hpair
      rw [List.pairwise_append] at hpair2
      have hcross : copia.id ≠ c.id := (List.pairwise_cons.mp hpair2.2.1).1 c hc3
      have hne : c.id ≠ cid := fun h => hcross (hcid.trans h.symm)
      have hmem : c ∈ copies := by
        rw [hsplit]
        exact List.mem_append.mpr (Or.inr (List.mem_cons_of_mem _ hc3))
      rw [hcount c.id, if_neg (fun h => hne h.symm)]
      exact hInv c hmem

theorem openCountL_close {borrows l₁ l₂ : List Borrow} {emp : Borrow} {d : Int}
    (hbsplit : borrows = l₁ ++ emp :: l₂)
    (hopen : emp.return_date = none) :
    ∀ x, openCountL (l₁ ++ { emp with return_date := some d } :: l₂) x +
      (if emp.book_copy_id = x then 1 else 0) = openCountL borrows x := by
  intro x
  unfold openCountL
  rw [hbsplit, List.countP_append, List.countP_append, List.countP_cons,
    List.countP_cons]
  by_cases hx : emp.book_copy_id = x
  · simp [hopen, hx]
    omega
  · simp [hopen, hx]

theorem InvL_close_found {copies : List BookCopy} {borrows : List Borrow}
    {bid : Nat} {emp : Borrow} {c₀ : BookCopy} {d : Int}
    (hpairc : copies.Pairwise (fun a b => a.id ≠ b.id))
    (hInv : InvL copies borrows)
    (hfindb : borrows.find? (fun b => b.id == bid) = some emp)
    (hopen : emp.return_date = none)
    (hfindc : copies.find? (fun x => x.id == emp.book_copy_id) = some c₀) :
    InvL (updateFirst (fun x => x.id == emp.book_copy_id)
        (fun x => { x with is_available := true }) copies)
      (updateFirst (fun b => b.id == bid)
        (fun b => { b with return_date := some d }) borrows) := by
  have hc₀id : c₀.id = emp.book_copy_id := by simpa using List.find?_some hfindc
  obtain ⟨l₁, l₂, hbsplit, hbfalse, hbupd, -⟩ := find?_decomp hfindb
  rw [hbupd]
  have hcount := openCountL_close (d := d) hbsplit hopen
  have h1 : openCountL borrows c₀.id = 1 := by
    obtain ⟨hle, hiff⟩ := hInv c₀ (List.mem_of_find?_eq_some hfindc)
    have hpos : 0 < openCountL borrows c₀.id := by
      unfold openCountL
      rw [List.countP_pos_iff]
      refine ⟨emp, List.mem_of_find?_eq_some hfindb, ?_⟩
      simp [hc₀id, hopen]
    omega
  obtain ⟨k₁, k₂, hcsplit, hkfalse, hkupd, -⟩ := find?_decomp hfindc
  rw [hkupd]
  intro c hc
  rcases List.mem_append.mp hc with hc1 | hc2
  · have hne : c.id ≠ emp.book_copy_id := by simpa using hkfalse c hc1
    have hmem : c ∈ copies := by
      rw [hcsplit]; exact List.mem_append.mpr (Or.inl hc1)
    have hcnt : openCountL (l₁ ++ { emp with return_date := some d } :: l₂) c.id =
        openCountL borrows c.id := by
      have := hcount c.id
      rw [if_neg (fun h => hne h.symm)] at this
      omega
    rw [hcnt]
    exact hInv c hmem
  · rcases List.mem_cons.mp hc2 with rfl | hc3
    · have hcnt : openCountL (l₁ ++ { emp with return_date := some d } :: l₂) c₀.id = 0 := by
        have := hcount c₀.id
        rw [if_pos hc₀id.symm] at this
        omega
      dsimp only
      rw [hcnt]
      simp
    · have hpair2 := hcsplit ▸ hpairc
      rw [List.pairwise_append] at hpair2
      have hcross : c₀.id ≠ c.id := (List.pairwise_cons.mp hpair2.2.1).1 c hc3
      have hne : c.id ≠ emp.book_copy_id := fun h => hcross (hc₀id.trans h.symm)
      have hmem : c ∈ copies := by
        rw [hcsplit]
        exact List.mem_append.mpr (Or.inr (List.mem_cons_of_mem _ hc3))
      have hcnt : openCountL (l₁ ++ { emp with return_date := some d } :: l₂) c.id =
          openCountL borrows c.id := by
        have := hcount c.id
        rw [if_neg (fun h => hne h.symm)] at this
        omega
      rw [hcnt]
      exact hInv c hmem

theorem InvL_close_missing {copies : List BookCopy} {borrows : List Borrow}
    {bid : Nat} {emp : Borrow} {d : Int}
    (hInv : InvL copies borrows)
    (hfindb : borrows.find? (fun b => b.id == bid) = some emp)
    (hopen : emp.return_date = none)
    (hnone : copies.find? (fun x => x.id == emp.book_copy_id) = none) :
    InvL copies (updateFirst (fun b => b.id == bid)
      (fun b => { b with return_date := some d }) borrows) := by
  obtain ⟨l₁, l₂, hbsplit, hbfalse, hbupd, -⟩ := find?_decomp hfindb
  rw [hbupd]
  have hcount := openCountL_close (d := d) hbsplit hopen
  intro c hc
  have hne : c.id ≠ emp.book_copy_id := by
    have := List.find?_eq_none.mp hnone c hc
    intro h
    exact this (by simp [h])
  have hcnt : openCountL (l₁ ++ { emp with return_date := some d } :: l₂) c.id =
      openCountL borrows c.id := by
    have := hcount c.id
    rw [if_neg (fun h => hne h.symm)] at this
    omega
  rw [hcnt]
  exact hInv c hc

theorem criar_emprestimo_preserves (db : DB) (req : CreateBorrowRequest)
    (now : Int) (hWF : WF db) (hInv : Inv db) :
    WF (criar_emprestimo db req now).1 ∧ Inv (criar_emprestimo db req now).1 := by
  rcases criar_emprestimo_state db req now with h | ⟨l, hl⟩
  · rw [h]; exact ⟨hWF, hInv⟩
  have hpaireq : criar_emprestimo db req now =
      ((criar_emprestimo db req now).1, .ok l) := by rw [← hl]
  obtain ⟨copia, hfind, hav, hid, hleq, hdb⟩ := criar_emprestimo_ok hpaireq
  obtain ⟨hpc, hpb, hbc, hbb⟩ := hWF
  rw [hdb]
  subst hleq
  constructor
  · refine ⟨?_, ?_, ?_, ?_⟩
    · show (updateFirst (fun c => c.id == req.book_copy_id)
        (fun c => { c with is_available := false }) db.copies).Pairwise _
      obtain ⟨k₁, k₂, hsplit, -, hkupd, -⟩ := find?_decomp hfind
      rw [hkupd]
      exact pairwise_key_replace BookCopy.id copia _ rfl (by rw [← hsplit]; exact hpc)
    · show (db.borrows ++ [_]).Pairwise _
      rw [List.pairwise_append]
      refine ⟨hpb, List.pairwise_singleton _ _, ?_⟩
      intro a ha b hb
      rcases List.mem_singleton.mp hb with rfl
      exact Nat.ne_of_lt (hbb a ha)
    · show ∀ c ∈ updateFirst (fun c => c.id == req.book_copy_id)
        (fun c => { c with is_available := false }) db.copies, c.id < db.next_copy_id
      obtain ⟨k₁, k₂, hsplit, -, hkupd, -⟩ := find?_decomp hfind
      rw [hkupd]
      exact bound_key_replace BookCopy.id copia _ rfl (by rw [← hsplit]; exact hbc)
    · show ∀ b ∈ db.borrows ++ [_], b.id < db.next_borrow_id + 1
      intro b hb
      rcases List.mem_append.mp hb with h1 | h2
      · exact Nat.lt_succ_of_lt (hbb b h1)
      · rcases List.mem_singleton.mp h2 with rfl
        exact Nat.lt_succ_self _
  · show InvL (updateFirst (fun c => c.id == req.book_copy_id)
      (fun c => { c with is_available := false }) db.copies) (db.borrows ++ [_])
    exact InvL_open hpc hInv hfind hav rfl rfl

theorem marcar_devolucao_preserves (db : DB) (bid : Nat) (ret : Option Int)
    (now : Int) (hWF : WF db) (hInv : Inv db) :
    WF (marcar_devolucao db bid ret now).1 ∧ Inv (marcar_devolucao db bid ret now).1 := by
  rcases marcar_devolucao_state db bid ret now with h | ⟨l, hl⟩
  · rw [h]; exact ⟨hWF, hInv⟩
  have hpaireq : marcar_devolucao db bid ret now =
      ((marcar_devolucao db bid ret now).1, .ok l) := by rw [← hl]
  obtain ⟨emp, hfindb, hopen, hleq, hbor, hcop, hbooks, husers, hnc, hnb⟩ :=
    marcar_devolucao_ok hpaireq
  obtain ⟨hpc, hpb, hbc, hbb⟩ := hWF
  constructor
  · refine ⟨?_, ?_, ?_, ?_⟩
    · rcases hcop with ⟨c₀, hfindc, hcopies⟩ | ⟨-, hcopies⟩
      · rw [hcopies]
        obtain ⟨k₁, k₂, hcsplit, -, hkupd, -⟩ := find?_decomp hfindc
        rw [hkupd]
        exact pairwise_key_replace BookCopy.id c₀ _ rfl (by rw [← hcsplit]; exact hpc)
      · rw [hcopies]; exact hpc
    · rw [hbor]
      obtain ⟨l₁, l₂, hbsplit, -, hbupd, -⟩ := find?_decomp hfindb
      rw [hbupd]
      exact pairwise_key_replace Borrow.id emp _ rfl (by rw [← hbsplit]; exact hpb)
    · rw [hnc]
      rcases hcop with ⟨c₀, hfindc, hcopies⟩ | ⟨-, hcopies⟩
      · rw [hcopies]
        obtain ⟨k₁, k₂, hcsplit, -, hkupd, -⟩ := find?_decomp hfindc
        rw [hkupd]
        exact bound_key_replace BookCopy.id c₀ _ rfl (by rw [← hcsplit]; exact hbc)
      · rw [hcopies]; exact hbc
    · rw [hnb, hbor]
      obtain ⟨l₁, l₂, hbsplit, -, hbupd, -⟩ := find?_decomp hfindb
      rw [hbupd]
      exact bound_key_replace Borrow.id emp _ rfl (by rw [← hbsplit]; exact hbb)
  · show InvL (marcar_devolucao db bid ret now).1.copies
      (marcar_devolucao db bid ret now).1.borrows
    rw [hbor]
    rcases hcop with ⟨c₀, hfindc, hcopies⟩ | ⟨hnone, hcopies⟩
    · rw [hcopies]
      exact InvL_close_found hpc hInv hfindb hopen hfindc
    · rw [hcopies]
      exact InvL_close_missing hInv hfindb hopen hnone

theorem deletar_copia_preserves (db : DB) (cid : Nat)
    (hWF : WF db) (hInv : Inv db) :
    WF (deletar_copia db cid).1 ∧ Inv (deletar_copia db cid).1 := by
  unfold deletar_copia
  split
  · exact ⟨hWF, hInv⟩
  rename_i c hfind
  split
  · exact ⟨hWF, hInv⟩
  obtain ⟨hpc, hpb, hbc, hbb⟩ := hWF
  obtain ⟨k₁, k₂, hsplit, -, -, hrem⟩ := find?_decomp hfind
  constructor
  · refine ⟨?_, ?_, ?_, ?_⟩
    · show (removeFirst (fun c => c.id == cid) db.copies).Pairwise _
      rw [hrem]
      exact pairwise_key_remove BookCopy.id (by rw [← hsplit]; exact hpc)
    · exact hpb
    · show ∀ y ∈ removeFirst (fun c => c.id == cid) db.copies, y.id < db.next_copy_id
      rw [hrem]
      intro y hy
      apply hbc
      rw [hsplit]
      rcases List.mem_append.mp hy with h1 | h2
      · exact List.mem_append.mpr (Or.inl h1)
      · exact List.mem_append.mpr (Or.inr (List.mem_cons_of_mem _ h2))
    · exact hbb
  · show InvL (removeFirst (fun c => c.id == cid) db.copies) db.borrows
    rw [hrem]
    refine InvL_sub hInv ?_
    intro y hy
    rw [hsplit]
    rcases List.mem_append.mp hy with h1 | h2
    · exact List.mem_append.mpr (Or.inl h1)
    · exact List.mem_append.mpr (Or.inr (List.mem_cons_of_mem _ h2))

/-- C1 amended: the availability invariant (a copy is unavailable iff
exactly one open loan references it, together with §3's at-most-one
open loan per copy), assuming unique primary keys, is preserved by
loan creation, loan return and copy deletion — whether they succeed or
reject.  It is not established by copy creation or copy update, whose
caller-supplied `is_available` field can break it (see the
counterexample). -/
theorem C1_amended_invariant_preserved (db : DB) (hWF : WF db) (hInv : Inv db) :
    (∀ req now, WF (criar_emprestimo db req now).1 ∧
      Inv (criar_emprestimo db req now).1) ∧
    (∀ bid ret now, WF (marcar_devolucao db bid ret now).1 ∧
      Inv (marcar_devolucao db bid ret now).1) ∧
    (∀ cid, WF (deletar_copia db cid).1 ∧ Inv (deletar_copia db cid).1) :=
  ⟨fun req now => criar_emprestimo_preserves db req now hWF hInv,
   fun bid ret now => marcar_devolucao_preserves db bid ret now hWF hInv,
   fun cid => deletar_copia_preserves db cid hWF hInv⟩

/-- C7: round-trip: after a successful openLoan on a copy no prior loan
referenced, closing the returned loan restores the copy's availability
and leaves exactly one (closed) Loan record referencing that copy. -/
theorem C7_roundtrip (db : DB) (req : CreateBorrowRequest) (now now2 : Int)
    (ret : Option Int) (l : Borrow)
    (hok : (criar_emprestimo db req now).2 = .ok l)
    (hnoprior : ∀ b ∈ db.borrows, b.book_copy_id ≠ req.book_copy_id)
    (hfresh : ∀ b ∈ db.borrows, b.id < db.next_borrow_id) :
    ∃ l', (marcar_devolucao (criar_emprestimo db req now).1 l.id ret now2).2 = .ok l' ∧
      l'.return_date = some (ret.getD now2) ∧
      (∃ c, (marcar_devolucao (criar_emprestimo db req now).1 l.id ret now2).1.copies.find?
          (fun x => x.id == req.book_copy_id) = some c ∧ c.is_available = true) ∧
      (marcar_devolucao (criar_emprestimo db req now).1 l.id ret now2).1.borrows.countP
          (fun b => b.book_copy_id == req.book_copy_id) = 1 ∧
      (∀ b ∈ (marcar_devolucao (criar_emprestimo db req now).1 l.id ret now2).1.borrows,
        b.book_copy_id = req.book_copy_id → b.return_date.isSome = true) := by
  have hpaireq : criar_emprestimo db req now =
      ((criar_emprestimo db req now).1, .ok l) := by rw [← hok]
  obtain ⟨copia, hfind, hav, hid, hleq, hdb⟩ := criar_emprestimo_ok hpaireq
  obtain ⟨k₁, k₂, hsplit, hkfalse, hkupd, -⟩ := find?_decomp hfind
  have hlid : l.id = db.next_borrow_id := by rw [hleq]
  have hlopen : l.return_date = none := by rw [hleq]
  have hlbcid : l.book_copy_id = req.book_copy_id := by rw [hleq]
  have hbfalse : ∀ y ∈ db.borrows, ((fun x : Borrow => x.id == l.id) y) = false := by
    intro y hy
    have := hfresh y hy
    rw [hlid]
    simp
    omega
  have hfound : (db.borrows ++ [l]).find? (fun x : Borrow => x.id == l.id) = some l :=
    find?_middle hbfalse (by simp)
  have hfoundc : (updateFirst (fun c => c.id == req.book_copy_id)
      (fun c => { c with is_available := false }) db.copies).find?
        (fun x => x.id == l.book_copy_id) = some { copia with is_available := false } := by
    rw [hkupd]
    refine find?_middle ?_ ?_
    · intro y hy
      rw [hlbcid]
      exact hkfalse y hy
    · rw [hlbcid]
      simpa using hid
  rw [hdb]
  have hm2 : (marcar_devolucao
      { db with
        copies := updateFirst (fun c => c.id == req.book_copy_id)
          (fun c => { c with is_available := false }) db.copies,
        borrows := db.borrows ++ [l],
        next_borrow_id := db.next_borrow_id + 1 } l.id ret now2).2 =
      .ok { l with return_date := some (ret.getD now2) } := by
    unfold marcar_devolucao
    dsimp only
    rw [hfound]
    simp [hlopen]
  have hmb : (marcar_devolucao
      { db with
        copies := updateFirst (fun c => c.id == req.book_copy_id)
          (fun c => { c with is_available := false }) db.copies,
        borrows := db.borrows ++ [l],
        next_borrow_id := db.next_borrow_id + 1 } l.id ret now2).1.borrows =
      db.borrows ++ [{ l with return_date := some (ret.getD now2) }] := by
    unfold marcar_devolucao
    dsimp only
    rw [hfound]
    simp only [hlopen, Option.isSome_none, Bool.false_eq_true, if_false]
    exact updateFirst_middle hbfalse (by simp)
  have hmc : (marcar_devolucao
      { db with
        copies := updateFirst (fun c => c.id == req.book_copy_id)
          (fun c => { c with is_available := false }) db.copies,
        borrows := db.borrows ++ [l],
        next_borrow_id := db.next_borrow_id + 1 } l.id ret now2).1.copies =
      k₁ ++ { copia with is_available := true } :: k₂ := by
    unfold marcar_devolucao
    dsimp only
    rw [hfound]
    simp only [hlopen, Option.isSome_none, Bool.false_eq_true, if_false]
    rw [hfoundc, hkupd]
    refine updateFirst_middle ?_ ?_
    · intro y hy
      rw [hlbcid]
      exact hkfalse y hy
    · rw [hlbcid]
      simpa using hid
  refine ⟨_, hm2, rfl, ?_, ?_, ?_⟩
  · refine ⟨{ copia with is_available := true }, ?_, rfl⟩
    rw [hmc]
    refine find?_middle hkfalse ?_
    simpa using hid
  · rw [hmb, List.countP_append]
    have h0 : db.borrows.countP (fun b => b.book_copy_id == req.book_copy_id) = 0 := by
      rw [List.countP_eq_zero]
      intro b hb
      simpa using hnoprior b hb
    rw [h0]
    simp [List.countP_cons, hlbcid]
  · rw [hmb]
    intro b hb hbc
    rcases List.mem_append.mp hb with h1 | h2
    · exact absurd hbc (hnoprior b h1)
    · rcases List.mem_singleton.mp h2 with rfl
      rfl

/-- C1 counterexample: copy creation and copy update are mutating
operations of the service, yet creating a copy with
`is_available := false` in a store satisfying the availability
invariant yields a store violating it (the new copy is unavailable
with zero open loans), and updating the on-loan copy with
`is_available := true` yields a store violating it (the copy is
available with one open loan). -/
theorem C1_counterexample_copy_ops :
    InvariantIff dbBooksOnly ∧
    (criar_copia dbBooksOnly exCopyReqUnav).2 = .ok
      { id := 1, book_id := 1, edition := none, copy_number := 1, condition := none,
        is_available := false } ∧
    ¬ InvariantIff (criar_copia dbBooksOnly exCopyReqUnav).1 ∧
    InvariantIff dbOnLoan ∧
    (atualizar_copia dbOnLoan 1 exUpdAvail).2 = .ok exCopy ∧
    ¬ InvariantIff (atualizar_copia dbOnLoan 1 exUpdAvail).1 :=
  ⟨by decide, rfl, by decide, by decide, rfl, by decide⟩

/-- C1 witness: the fixture stores satisfy the hypotheses and the
invariant is preserved across a concrete loan creation, loan return
and copy deletion. -/
theorem C1_amended_invariant_preserved_witness :
    WF dbOnLoan ∧ Inv dbOnLoan ∧
    Inv (criar_emprestimo dbAvail exReq 5).1 ∧
    Inv (marcar_devolucao dbOnLoan 1 none 7).1 ∧
    Inv (deletar_copia dbOnLoan 1).1 :=
  ⟨by decide, by decide,
   ((C1_amended_invariant_preserved dbAvail (by decide) (by decide)).1 exReq 5).2,
   ((C1_amended_invariant_preserved dbOnLoan (by decide) (by decide)).2.1 1 none 7).2,
   ((C1_amended_invariant_preserved dbOnLoan (by decide) (by decide)).2.2 1).2⟩

/-- C2 witness: a concrete successful openLoan writes the ledger entry,
and a concrete rejected openLoan leaves the store untouched. -/
theorem C2_loan_ops_atomic_witness :
    ({ id := 1, book_copy_id := 1, borrower_id := 1, lender_id := 2, borrow_date := 5,
       due_date := 10, return_date := none } : Borrow) ∈
      (criar_emprestimo dbAvail exReq 5).1.borrows ∧
    (criar_emprestimo dbUnav exReq 5).1 = dbUnav :=
  ⟨(((C2_loan_ops_atomic dbAvail).1 exReq 5).2 _ rfl).1,
   ((C2_loan_ops_atomic dbUnav).1 exReq 5).1
     (ApiError.http 400 "Cópia não está disponível para empréstimo") rfl⟩

/-- C3 witness: the concrete unavailable-copy store rejects with 400. -/
theorem C3_unavailable_copy_rejected_witness :
    ∃ d, criar_emprestimo dbUnav exReq 5 = (dbUnav, .error (ApiError.http 400 d)) :=
  C3_unavailable_copy_rejected dbUnav exReq 5 { exCopy with is_available := false } rfl rfl

/-- C4 witness: the at-limit borrower is rejected, and a borrower with
no open loans passes the limit check. -/
theorem C4_loan_limit_witness :
    (∃ e, criar_emprestimo dbAtLimit { exReq with book_copy_id := 4 } 5 =
      (dbAtLimit, .error e)) ∧
    verificar_limite_emprestimos dbAvail 1 3 = true :=
  ⟨(C4_loan_limit dbAtLimit { exReq with book_copy_id := 4 } 5).1 (by decide),
   (C4_loan_limit dbAvail exReq 5).2 1 (by decide)⟩

/-- C5 witness: the borrower with an overdue loan is rejected at
instant 6 even for the free copy 2. -/
theorem C5_delinquent_rejected_witness :
    ∃ e, criar_emprestimo dbOverdue { exReq with book_copy_id := 2 } 6 =
      (dbOverdue, .error e) :=
  C5_delinquent_rejected dbOverdue { exReq with book_copy_id := 2 } 6 (by decide)

/-- C6 witness: closing open loan 1 succeeds once and the repeat call
is rejected with the already-returned Conflict. -/
theorem C6_closeLoan_idempotent_rejecting_witness :
    ∃ l, (marcar_devolucao dbOnLoan 1 none 7).2 = .ok l ∧
      l.return_date = some 7 ∧
      ∀ ret2 now2, marcar_devolucao (marcar_devolucao dbOnLoan 1 none 7).1 1 ret2 now2 =
        ((marcar_devolucao dbOnLoan 1 none 7).1,
          .error (ApiError.http 400 "Este empréstimo já foi devolvido")) :=
  C6_closeLoan_idempotent_rejecting dbOnLoan 1 none 7 exLoanOpen rfl rfl

/-- C7 witness: the concrete open-then-close round trip restores the
copy and leaves exactly one closed loan for it. -/
theorem C7_roundtrip_witness :
    ∃ l', (marcar_devolucao (criar_emprestimo dbAvail exReq 5).1 1 none 7).2 = .ok l' ∧
      l'.return_date = some 7 ∧
      (∃ c, (marcar_devolucao (criar_emprestimo dbAvail exReq 5).1 1 none 7).1.copies.find?
          (fun x => x.id == 1) = some c ∧ c.is_available = true) ∧
      (marcar_devolucao (criar_emprestimo dbAvail exReq 5).1 1 none 7).1.borrows.countP
          (fun b => b.book_copy_id == 1) = 1 ∧
      (∀ b ∈ (marcar_devolucao (criar_emprestimo dbAvail exReq 5).1 1 none 7).1.borrows,
        b.book_copy_id = 1 → b.return_date.isSome = true) :=
  C7_roundtrip dbAvail exReq 5 7 none
    { id := 1, book_copy_id := 1, borrower_id := 1, lender_id := 2, borrow_date := 5,
      due_date := 10, return_date := none } rfl (by decide) (by decide)

/-- C8 witness: closing the loan whose copy 9 is absent still closes it
and the (empty) copy table is untouched. -/
theorem C8_close_with_missing_copy_witness :
    (marcar_devolucao dbOrphan 1 (some 8) 9).2 =
      .ok { exLoanOpen with book_copy_id := 9, return_date := some 8 } ∧
    (marcar_devolucao dbOrphan 1 (some 8) 9).1.copies = dbOrphan.copies :=
  C8_close_with_missing_copy dbOrphan 1 (some 8) 9
    { exLoanOpen with book_copy_id := 9 } rfl rfl rfl

/-- C9 counterexample: user 1 is referenced by the open loan 1, yet the
user delete succeeds and removes the record, contradicting the claim
that such deletions are rejected. -/
theorem C9_counterexample_user_delete :
    (∃ b ∈ dbOnLoan.borrows, b.borrower_id = 1 ∧ b.return_date = none) ∧
    (deletar_usuario dbOnLoan 1).2 = .ok () ∧
    (deletar_usuario dbOnLoan 1).1.users.find? (fun u => u.id == 1) = none :=
  ⟨by decide, rfl, rfl⟩

/-- C9 witness: the on-loan copy delete is rejected with the concrete
Conflict, while deleting borrower 1 succeeds despite the open loan. -/
theorem C9_amended_delete_guards_witness :
    deletar_copia dbOnLoan 1 =
      (dbOnLoan, .error (ApiError.http 400 "Não é possível deletar uma cópia que está emprestada")) ∧
    (deletar_usuario dbOnLoan 1).2 = .ok () :=
  ⟨(C9_amended_delete_guards dbOnLoan).1 1 { exCopy with is_available := false }
      (by decide) rfl (by decide),
   (C9_amended_delete_guards dbOnLoan).2 1 exUserCliente rfl⟩

/-- C10 witness: the detail read succeeds on the fully-populated store
and crashes with the None dereference when the copy row is absent. -/
theorem C10_detail_read_guards_only_loan_witness :
    buscar_emprestimo dbOnLoan 1 = .ok
      { id := 1, book_copy_id := 1, borrower_id := 1, lender_id := 2, borrow_date := 0,
        due_date := 10, return_date := none,
        book_title := "Dom Casmurro", book_author := "Machado de Assis",
        copy_number := 1, book_condition := some "boa",
        borrower_name := "Ana", borrower_email := "ana@example.com",
        lender_name := "Bob", lender_email := "bob@example.com" } ∧
    buscar_emprestimo dbOrphan 1 = .error ApiError.noneError :=
  ⟨(((C10_detail_read_guards_only_loan dbOnLoan 1).2 exLoanOpen rfl).2
      { exCopy with is_available := false } rfl).2
      exBook exUserCliente exUserFuncionario rfl rfl rfl,
   ((C10_detail_read_guards_only_loan dbOrphan 1).2
      { exLoanOpen with book_copy_id := 9 } rfl).1 rfl⟩

end LucasApi
